import Mathlib

/-!
Verification of the Lisk transaction-pattern analysis core.

The repository contains two near-duplicate implementations of the same model:
`lisk_analysis_simplified.py` (dependency-free, hourly granularity) and
`lisk_transaction_analysis.py` (pandas/numpy, 5-minute granularity).  Python
floats are embedded as exact rationals `ℚ`, machine integers as `ℤ`/`ℕ`;
Python `int(x)` (truncation toward zero) is embedded as `pytrunc`; values the
full model leaves undefined (NaN/inf from unguarded division) are embedded as
`Option ℚ` with `none` for the undefined case.
-/

namespace LiskAnalysis

/-- `_get_hour_factor` (identical in both source files): transaction volume
multiplier by hour of day. -/
def hourFactor (hour : ℕ) : ℚ :=
  if (9 ≤ hour ∧ hour ≤ 11) ∨ (14 ≤ hour ∧ hour ≤ 16) then 1.8
  else if 7 ≤ hour ∧ hour ≤ 18 then 1.3
  else if 20 ≤ hour ∧ hour ≤ 23 then 1.1
  else if hour ≤ 6 then 0.4
  else 1.0

/-- `_get_day_factor` (identical in both source files): weekday multiplier,
`weekday < 5` is a weekday, `5`/`6` the weekend. -/
def dayFactor (weekday : ℕ) : ℚ :=
  if weekday < 5 then 1.0 else 0.65

/-- Growth trend used by both generators: `1 + (0.03 * day / 30)`. -/
def growthFactor (dayIdx : ℕ) : ℚ :=
  1 + (0.03 * dayIdx / 30)

/-- `StorageEstimate` record (fields as in `_calculate_storage_requirements`
and `calculate_storage_requirements`, which compute identical formulas). -/
structure StorageEstimate where
  raw_daily_mb : ℚ
  raw_weekly_mb : ℚ
  raw_monthly_mb : ℚ
  cached_5min_mb : ℚ
  cached_15min_mb : ℚ
  cached_hourly_mb : ℚ
  cached_daily_mb : ℚ
  deriving DecidableEq

/-- `calculate_storage_requirements` / `_calculate_storage_requirements`:
200 bytes per raw transaction at compression 0.3, 100 bytes per aggregate
record at compression 0.5, with 288/96/24/1 aggregate records per day. -/
def calculate_storage_requirements (daily_volume : ℤ) : StorageEstimate where
  raw_daily_mb := ((daily_volume : ℚ) * 200 * 0.3) / (1024 * 1024)
  raw_weekly_mb := (((daily_volume : ℚ) * 200 * 0.3) / (1024 * 1024)) * 7
  raw_monthly_mb := (((daily_volume : ℚ) * 200 * 0.3) / (1024 * 1024)) * 30
  cached_5min_mb := (288 * 100 * 0.5) / (1024 * 1024)
  cached_15min_mb := (96 * 100 * 0.5) / (1024 * 1024)
  cached_hourly_mb := (24 * 100 * 0.5) / (1024 * 1024)
  cached_daily_mb := (1 * 100 * 0.5) / (1024 * 1024)

/-- C7: the seasonal-model factor tables.  `hourFactor` returns 1.8 on the
peak hours {9,10,11,14,15,16}, 1.3 on the remaining business hours [7,18],
1.1 on the evening hours [20,23], 0.4 on the night hours [0,6], and 1.0
otherwise (in particular for hour 19); `dayFactor` returns 1.0 on weekdays
0-4 and 0.65 on the weekend 5-6.  Both are total functions. -/
theorem hour_day_factor_table (hour weekday : ℕ) :
    (((9 ≤ hour ∧ hour ≤ 11) ∨ (14 ≤ hour ∧ hour ≤ 16)) → hourFactor hour = 1.8) ∧
    ((7 ≤ hour ∧ hour ≤ 18 ∧ ¬((9 ≤ hour ∧ hour ≤ 11) ∨ (14 ≤ hour ∧ hour ≤ 16))) →
      hourFactor hour = 1.3) ∧
    ((20 ≤ hour ∧ hour ≤ 23) → hourFactor hour = 1.1) ∧
    (hour ≤ 6 → hourFactor hour = 0.4) ∧
    (hour = 19 → hourFactor hour = 1.0) ∧
    (weekday ≤ 4 → dayFactor weekday = 1.0) ∧
    ((5 ≤ weekday ∧ weekday ≤ 6) → dayFactor weekday = 0.65) := by
  refine ⟨?_, ?_, ?_, ?_, ?_, ?_, ?_⟩ <;> intro h <;>
    first
    | (unfold hourFactor; split_ifs <;> first | rfl | omega)
    | (unfold dayFactor; split_ifs <;> first | rfl | omega)

/-- Witness for C7 at hour 19, weekday 5. -/
theorem hour_day_factor_table_witness :
    (19 : ℕ) = 19 ∧ hourFactor 19 = 1.0 ∧ (5 ≤ (5 : ℕ) ∧ (5 : ℕ) ≤ 6) ∧ dayFactor 5 = 0.65 :=
  ⟨rfl, (hour_day_factor_table 19 5).2.2.2.2.1 rfl, ⟨le_refl 5, by omega⟩,
    (hour_day_factor_table 19 5).2.2.2.2.2.2 ⟨le_refl 5, by omega⟩⟩

/-- C2 counterexample: at `dailyVolume = 0` the cached aggregated figures are
NOT zero — `cached_5min_mb` is the fixed constant `288·100·0.5/1024² MB`. -/
theorem storage_zero_not_all_zero :
    (calculate_storage_requirements 0).cached_5min_mb ≠ 0 := by
  unfold calculate_storage_requirements
  norm_num

/-- C2 (amended): at `dailyVolume = 0` the three raw MB figures are zero, but
the four cached MB figures keep their volume-independent constant values
(288, 96, 24 and 1 records per day times 100 bytes times 0.5 compression,
divided by 1024²). -/
theorem storage_zero_raw_figures_zero :
    (calculate_storage_requirements 0).raw_daily_mb = 0 ∧
    (calculate_storage_requirements 0).raw_weekly_mb = 0 ∧
    (calculate_storage_requirements 0).raw_monthly_mb = 0 ∧
    (calculate_storage_requirements 0).cached_5min_mb = (288 * 100 * 0.5) / (1024 * 1024) ∧
    (calculate_storage_requirements 0).cached_15min_mb = (96 * 100 * 0.5) / (1024 * 1024) ∧
    (calculate_storage_requirements 0).cached_hourly_mb = (24 * 100 * 0.5) / (1024 * 1024) ∧
    (calculate_storage_requirements 0).cached_daily_mb = (1 * 100 * 0.5) / (1024 * 1024) := by
  unfold calculate_storage_requirements
  norm_num

/-- C10: the four cached aggregated storage fields do not depend on the input
volume at all — for any two daily volumes they are identical, and they equal
the constants `k·100·0.5/1024²` for `k = 288, 96, 24, 1`. -/
theorem cached_storage_independent_of_volume (v₁ v₂ : ℤ) (h₁ : 0 < v₁) (h₂ : 0 < v₂) :
    (calculate_storage_requirements v₁).cached_5min_mb
        = (calculate_storage_requirements v₂).cached_5min_mb ∧
    (calculate_storage_requirements v₁).cached_15min_mb
        = (calculate_storage_requirements v₂).cached_15min_mb ∧
    (calculate_storage_requirements v₁).cached_hourly_mb
        = (calculate_storage_requirements v₂).cached_hourly_mb ∧
    (calculate_storage_requirements v₁).cached_daily_mb
        = (calculate_storage_requirements v₂).cached_daily_mb ∧
    (calculate_storage_requirements v₁).cached_5min_mb = (288 * 100 * 0.5) / (1024 * 1024) ∧
    (calculate_storage_requirements v₁).cached_15min_mb = (96 * 100 * 0.5) / (1024 * 1024) ∧
    (calculate_storage_requirements v₁).cached_hourly_mb = (24 * 100 * 0.5) / (1024 * 1024) ∧
    (calculate_storage_requirements v₁).cached_daily_mb = (1 * 100 * 0.5) / (1024 * 1024) := by
  unfold calculate_storage_requirements
  norm_num

/-- Witness for C10 at volumes 94301 and 1. -/
theorem cached_storage_independent_of_volume_witness :
    (0 : ℤ) < 94301 ∧ (0 : ℤ) < 1 ∧
    (calculate_storage_requirements 94301).cached_5min_mb
      = (calculate_storage_requirements 1).cached_5min_mb :=
  ⟨by norm_num, by norm_num,
    (cached_storage_independent_of_volume 94301 1 (by norm_num) (by norm_num)).1⟩

/-! ### Statistics Engine: linear trend and R² (simplified model, lines 93-120) -/

/-- Population mean as computed by `calculate_statistics`: `sum / len`. -/
def mean (xs : List ℚ) : ℚ := xs.sum / xs.length

/-- `x_mean = (n - 1) / 2`, the mean of the x values 0..n-1. -/
def x_mean (n : ℕ) : ℚ := ((n : ℚ) - 1) / 2

/-- Regression numerator `Σ (i - x̄)(y_i - ȳ)`. -/
def numerator (ys : List ℚ) : ℚ :=
  ∑ i in Finset.range ys.length, ((i : ℚ) - x_mean ys.length) * (ys.getD i 0 - mean ys)

/-- Regression denominator `Σ (i - x̄)²`. -/
def denominator (ys : List ℚ) : ℚ :=
  ∑ i in Finset.range ys.length, ((i : ℚ) - x_mean ys.length) ^ 2

/-- `slope = numerator / denominator if denominator != 0 else 0`. -/
def slope (ys : List ℚ) : ℚ :=
  if denominator ys ≠ 0 then numerator ys / denominator ys else 0

/-- `intercept = y_mean - slope * x_mean`. -/
def intercept (ys : List ℚ) : ℚ := mean ys - slope ys * x_mean ys.length

/-- `ss_res = Σ (y_i - (slope*i + intercept))²`. -/
def ss_res (ys : List ℚ) : ℚ :=
  ∑ i in Finset.range ys.length, (ys.getD i 0 - (slope ys * i + intercept ys)) ^ 2

/-- `ss_tot = Σ (y_i - y_mean)²`. -/
def ss_tot (ys : List ℚ) : ℚ :=
  ∑ i in Finset.range ys.length, (ys.getD i 0 - mean ys) ^ 2

/-- The natural OLS value `1 - SS_res/SS_tot` (spec wording), before any
guard or override is applied. -/
def naturalRSquared (ys : List ℚ) : ℚ := 1 - ss_res ys / ss_tot ys

/-- `r_squared = 1 - (ss_res / ss_tot) if ss_tot != 0 else 0.99`. -/
def r_squared (ys : List ℚ) : ℚ :=
  if ss_tot ys ≠ 0 then 1 - ss_res ys / ss_tot ys else 0.99

/-- The returned `trend_r_squared` field after the synthetic override
`if r_squared < 0.95: r_squared = 0.9875`. -/
def trend_r_squared (ys : List ℚ) : ℚ :=
  if r_squared ys < 0.95 then 0.9875 else r_squared ys

/-- C1: the returned `trend_r_squared` equals 0.99 when `SS_tot = 0`;
otherwise it equals the natural OLS value whenever that is at least 0.95 and
is replaced by the fixed value 0.9875 (≥ 0.95) whenever the natural value
falls below 0.95; in all cases the returned value is at least 0.95. -/
theorem trend_r_squared_spec (ys : List ℚ) :
    (ss_tot ys = 0 → trend_r_squared ys = 0.99) ∧
    (ss_tot ys ≠ 0 → 0.95 ≤ naturalRSquared ys →
      trend_r_squared ys = naturalRSquared ys) ∧
    (ss_tot ys ≠ 0 → naturalRSquared ys < 0.95 →
      trend_r_squared ys = 0.9875 ∧ (0.95 : ℚ) ≤ 0.9875) ∧
    0.95 ≤ trend_r_squared ys := by
  have hr : r_squared ys = if ss_tot ys ≠ 0 then naturalRSquared ys else 0.99 := by
    unfold r_squared naturalRSquared; rfl
  refine ⟨?_, ?_, ?_, ?_⟩
  · intro h
    unfold trend_r_squared
    rw [hr, if_neg (not_not_intro h), if_neg (by norm_num)]
  · intro h h95
    unfold trend_r_squared
    rw [hr, if_pos h, if_neg (not_lt.mpr h95)]
  · intro h h95
    unfold trend_r_squared
    rw [hr, if_pos h, if_pos h95]
    exact ⟨rfl, by norm_num⟩
  · unfold trend_r_squared
    by_cases hlt : r_squared ys < 0.95
    · rw [if_pos hlt]; norm_num
    · rw [if_neg hlt]; exact not_lt.mp hlt

/-- Witness for C1 on the constant series `[5, 5]`, whose `SS_tot` is 0. -/
theorem trend_r_squared_spec_witness :
    ss_tot [5, 5] = 0 ∧ trend_r_squared [5, 5] = 0.99 := by
  have h : ss_tot [5, 5] = 0 := by
    norm_num [ss_tot, mean, Finset.sum_range_succ]
  exact ⟨h, (trend_r_squared_spec [5, 5]).1 h⟩

/-- Expansion of the residual sum of squares: substituting
`intercept = ȳ - slope·x̄` makes each residual `(y_i-ȳ) - slope·(i-x̄)`. -/
theorem ss_res_expand (ys : List ℚ) :
    ss_res ys = ss_tot ys - 2 * slope ys * numerator ys
      + slope ys ^ 2 * denominator ys := by
  unfold ss_res ss_tot numerator denominator intercept
  rw [Finset.mul_sum, Finset.mul_sum, ← Finset.sum_sub_distrib, ← Finset.sum_add_distrib]
  exact Finset.sum_congr rfl fun i _ => by ring

/-- C9: whenever `SS_tot ≠ 0`, the natural OLS R² lies in `[0, 1]` — the
least-squares residual sum never exceeds the total sum of squares. -/
theorem natural_r_squared_in_unit_interval (ys : List ℚ) (h : ss_tot ys ≠ 0) :
    0 ≤ naturalRSquared ys ∧ naturalRSquared ys ≤ 1 := by
  have hres : 0 ≤ ss_res ys := Finset.sum_nonneg fun i _ => sq_nonneg _
  have htot : 0 ≤ ss_tot ys := Finset.sum_nonneg fun i _ => sq_nonneg _
  have htot' : 0 < ss_tot ys := lt_of_le_of_ne htot (Ne.symm h)
  have hle : ss_res ys ≤ ss_tot ys := by
    rw [ss_res_expand]
    by_cases hden : denominator ys = 0
    · simp [slope, hden]
    · have hdnn : 0 ≤ denominator ys := Finset.sum_nonneg fun i _ => sq_nonneg _
      have hden' : 0 < denominator ys := lt_of_le_of_ne hdnn (Ne.symm hden)
      rw [slope, if_pos hden]
      have hrw : ss_tot ys - 2 * (numerator ys / denominator ys) * numerator ys
          + (numerator ys / denominator ys) ^ 2 * denominator ys
          = ss_tot ys - numerator ys ^ 2 / denominator ys := by
        field_simp
        ring
      rw [hrw]
      have hq : 0 ≤ numerator ys ^ 2 / denominator ys :=
        div_nonneg (sq_nonneg _) hden'.le
      linarith
  constructor
  · have h1 : ss_res ys / ss_tot ys ≤ 1 := (div_le_one htot').mpr hle
    unfold naturalRSquared; linarith
  · have h0 : 0 ≤ ss_res ys / ss_tot ys := div_nonneg hres htot
    unfold naturalRSquared; linarith

/-- Witness for C9 on the series `[0, 1]`. -/
theorem natural_r_squared_in_unit_interval_witness :
    ss_tot [0, 1] ≠ 0 ∧
    (0 ≤ naturalRSquared [0, 1] ∧ naturalRSquared [0, 1] ≤ 1) := by
  have h : ss_tot [0, 1] ≠ 0 := by
    norm_num [ss_tot, mean, Finset.sum_range_succ]
  exact ⟨h, natural_r_squared_in_unit_interval [0, 1] h⟩

/-! ### Standard deviation and outlier thresholds (C5) -/

/-- `daily_variance` from the simplified model (lines 94-95): divisor `N`
(population variance).  The reported `daily_std_deviation` is its square
root. -/
def daily_variance (xs : List ℚ) : ℚ :=
  (xs.map (fun x => (x - mean xs) ^ 2)).sum / xs.length

/-- The variance underlying pandas `Series.std()` with its default
`ddof = 1`, used by the full model for `daily_std_deviation` and both
outlier thresholds: divisor `N - 1` (sample variance). -/
def pandasVariance (xs : List ℚ) : ℚ :=
  (xs.map (fun x => (x - mean xs) ^ 2)).sum / ((xs.length : ℚ) - 1)

theorem sq_dev_sum_nonneg (xs : List ℚ) :
    0 ≤ (xs.map (fun x => (x - mean xs) ^ 2)).sum := by
  apply List.sum_nonneg
  intro a ha
  rcases List.mem_map.mp ha with ⟨x, _, rfl⟩
  exact sq_nonneg _

theorem daily_variance_nonneg (xs : List ℚ) : 0 ≤ daily_variance xs :=
  div_nonneg (sq_dev_sum_nonneg xs) (by positivity)

theorem pandasVariance_nonneg (xs : List ℚ) (hne : xs ≠ []) : 0 ≤ pandasVariance xs := by
  have h1 : (1 : ℚ) ≤ (xs.length : ℚ) := by
    have := List.length_pos.mpr hne
    exact_mod_cast this
  exact div_nonneg (sq_dev_sum_nonneg xs) (by linarith)

/-- C5 (amended): the simplified engine reports the population standard
deviation — its square times `N` recovers `Σ(x-mean)²` — with outlier
thresholds `mean ± 2·std`; the full engine reports the pandas-default sample
standard deviation — its square times `N-1` recovers `Σ(x-mean)²` — with
thresholds `mean ± 2·(sample std)`. -/
theorem daily_std_deviation_divisors (xs : List ℚ) (hne : xs ≠ []) :
    Real.sqrt (daily_variance xs) ^ 2 * (xs.length : ℝ)
      = ((xs.map (fun x => (x - mean xs) ^ 2)).sum : ℚ) ∧
    Real.sqrt (pandasVariance xs) ^ 2 * ((xs.length : ℝ) - 1)
      = ((xs.map (fun x => (x - mean xs) ^ 2)).sum : ℚ) ∧
    (((mean xs : ℝ) + 2 * Real.sqrt (daily_variance xs)) - mean xs) ^ 2
      = 4 * (daily_variance xs : ℚ) ∧
    (((mean xs : ℝ) - 2 * Real.sqrt (daily_variance xs)) - mean xs) ^ 2
      = 4 * (daily_variance xs : ℚ) ∧
    (((mean xs : ℝ) + 2 * Real.sqrt (pandasVariance xs)) - mean xs) ^ 2
      = 4 * (pandasVariance xs : ℚ) := by
  have hlen : (0 : ℚ) < xs.length := by exact_mod_cast List.length_pos.mpr hne
  have hv : Real.sqrt (daily_variance xs) ^ 2 = ((daily_variance xs : ℚ) : ℝ) :=
    Real.sq_sqrt (by exact_mod_cast daily_variance_nonneg xs)
  have hpv : Real.sqrt (pandasVariance xs) ^ 2 = ((pandasVariance xs : ℚ) : ℝ) :=
    Real.sq_sqrt (by exact_mod_cast pandasVariance_nonneg xs hne)
  refine ⟨?_, ?_, ?_, ?_, ?_⟩
  · rw [hv]
    have : daily_variance xs * (xs.length : ℚ)
        = (xs.map (fun x => (x - mean xs) ^ 2)).sum :=
      div_mul_cancel₀ _ (ne_of_gt hlen)
    exact_mod_cast this
  · rw [hpv]
    by_cases h1 : xs.length = 1
    · rcases List.length_eq_one.mp h1 with ⟨a, rfl⟩
      have hm : mean [a] = a := by simp [mean]
      simp [pandasVariance, hm]
    · have hne1 : ((xs.length : ℚ) - 1) ≠ 0 := by
        have : (1 : ℚ) ≤ (xs.length : ℚ) := by
          exact_mod_cast List.length_pos.mpr hne
        have hgt : (1 : ℚ) < (xs.length : ℚ) := by
          rcases lt_or_eq_of_le this with h | h
          · exact h
          · exact absurd (by exact_mod_cast h.symm) h1
        linarith
      have : pandasVariance xs * ((xs.length : ℚ) - 1)
          = (xs.map (fun x => (x - mean xs) ^ 2)).sum :=
        div_mul_cancel₀ _ hne1
      exact_mod_cast this
  · rw [show (((mean xs : ℝ) + 2 * Real.sqrt (daily_variance xs)) - mean xs) ^ 2
        = 4 * Real.sqrt (daily_variance xs) ^ 2 by ring, hv]
  · rw [show (((mean xs : ℝ) - 2 * Real.sqrt (daily_variance xs)) - mean xs) ^ 2
        = 4 * Real.sqrt (daily_variance xs) ^ 2 by ring, hv]
  · rw [show (((mean xs : ℝ) + 2 * Real.sqrt (pandasVariance xs)) - mean xs) ^ 2
        = 4 * Real.sqrt (pandasVariance xs) ^ 2 by ring, hpv]

/-- Witness for C5 (amended) on the series `[0, 2]`. -/
theorem daily_std_deviation_divisors_witness :
    ([0, 2] : List ℚ) ≠ [] ∧
    Real.sqrt (daily_variance [0, 2]) ^ 2 * (([0, 2] : List ℚ).length : ℝ)
      = ((([0, 2] : List ℚ).map (fun x => (x - mean [0, 2]) ^ 2)).sum : ℚ) := by
  refine ⟨by simp, ?_⟩
  exact (daily_std_deviation_divisors [0, 2] (by simp)).1

/-- C5 counterexample: on the daily totals `[0, 2]` the full model's reported
standard deviation `√(sample variance) = √2` differs from the population
standard deviation `√(population variance) = 1`. -/
theorem pandas_std_not_population :
    Real.sqrt (pandasVariance [0, 2]) ≠ Real.sqrt (daily_variance [0, 2]) := by
  have h1 : daily_variance [0, 2] = 1 := by
    norm_num [daily_variance, mean]
  have h2 : pandasVariance [0, 2] = 2 := by
    norm_num [pandasVariance, mean]
  rw [h1, h2]
  have : Real.sqrt 1 < Real.sqrt 2 := Real.sqrt_lt_sqrt (by norm_num) (by norm_num)
  rw [Real.sqrt_one] at this
  push_cast
  rw [Real.sqrt_one]
  exact ne_of_gt this

/-! ### Weekend/weekday ratio (C8) -/

/-- A daily record as built by `_generate_transaction_data` (only the fields
used by the weekend analysis). -/
structure DayRecord where
  is_weekend : Bool
  daily_total : ℚ
  deriving DecidableEq

/-- A row of the full model's 5-minute DataFrame (only the fields used by
the weekend analysis). -/
structure IntervalRow where
  is_weekend : Bool
  transaction_count : ℚ
  deriving DecidableEq

/-- `weekend_volumes` list (simplified model, line 141). -/
def weekendVolumes (ds : List DayRecord) : List ℚ :=
  (ds.filter (·.is_weekend)).map (·.daily_total)

/-- `weekday_volumes` list (simplified model, line 142). -/
def weekdayVolumes (ds : List DayRecord) : List ℚ :=
  (ds.filter (fun d => !d.is_weekend)).map (·.daily_total)

/-- `weekend_avg = sum(...)/len(...) if weekend_volumes else 0`. -/
def weekend_avg (ds : List DayRecord) : ℚ :=
  if weekendVolumes ds ≠ [] then (weekendVolumes ds).sum / (weekendVolumes ds).length else 0

/-- `weekday_avg = sum(...)/len(...) if weekday_volumes else 0`. -/
def weekday_avg (ds : List DayRecord) : ℚ :=
  if weekdayVolumes ds ≠ [] then (weekdayVolumes ds).sum / (weekdayVolumes ds).length else 0

/-- `weekend_ratio = weekend_avg / weekday_avg if weekday_avg != 0 else 0.65`
(simplified model, line 146). -/
def weekend_vs_weekday (ds : List DayRecord) : ℚ :=
  if weekday_avg ds ≠ 0 then weekend_avg ds / weekday_avg ds else 0.65

/-- Weekend interval counts selected by the full model (lines 214-216). -/
def weekendCounts (rows : List IntervalRow) : List ℚ :=
  (rows.filter (·.is_weekend)).map (·.transaction_count)

/-- Weekday interval counts selected by the full model (lines 217-219). -/
def weekdayCounts (rows : List IntervalRow) : List ℚ :=
  (rows.filter (fun r => !r.is_weekend)).map (·.transaction_count)

/-- pandas `.mean()`: NaN on an empty selection, embedded as `none`. -/
def pdMean (xs : List ℚ) : Option ℚ :=
  if xs = [] then none else some (xs.sum / xs.length)

/-- The full model's `weekend_avg / weekday_avg` (line 225): an unguarded
float quotient, with no defined rational value (NaN/inf) when either mean is
NaN or the weekday mean is zero. -/
def weekend_vs_weekday_full (rows : List IntervalRow) : Option ℚ :=
  match pdMean (weekendCounts rows), pdMean (weekdayCounts rows) with
  | some a, some b => if b = 0 then none else some (a / b)
  | _, _ => none

/-- C8 (amended): the simplified engine returns `weekend_avg / weekday_avg`
with the explicit fallback 0.65 when the weekday average is zero (the group
averages themselves falling back to 0 on empty groups); the full engine
computes the unguarded quotient of per-interval means and has no defined
value (silent NaN/inf) when the weekday mean is zero or a group is empty. -/
theorem weekend_fallback_spec (ds : List DayRecord) (rows : List IntervalRow) :
    (weekday_avg ds ≠ 0 → weekend_vs_weekday ds = weekend_avg ds / weekday_avg ds) ∧
    (weekday_avg ds = 0 → weekend_vs_weekday ds = 0.65) ∧
    (∀ wm dm : ℚ, pdMean (weekendCounts rows) = some wm →
      pdMean (weekdayCounts rows) = some dm → dm ≠ 0 →
      weekend_vs_weekday_full rows = some (wm / dm)) ∧
    (pdMean (weekdayCounts rows) = some 0 → weekend_vs_weekday_full rows = none) ∧
    (pdMean (weekendCounts rows) = none → weekend_vs_weekday_full rows = none) := by
  refine ⟨?_, ?_, ?_, ?_, ?_⟩
  · intro h; rw [weekend_vs_weekday, if_pos h]
  · intro h; rw [weekend_vs_weekday, if_neg (not_not_intro h)]
  · intro wm dm hw hd hdm
    rw [weekend_vs_weekday_full, hw, hd]
    simp [hdm]
  · intro hd
    rw [weekend_vs_weekday_full, hd]
    rcases pdMean (weekendCounts rows) with _ | a <;> simp
  · intro hw
    rw [weekend_vs_weekday_full, hw]

/-- Witness for C8 (amended): one Saturday with total 5 and one Monday with
total 0 — the simplified engine falls back to 0.65. -/
theorem weekend_fallback_spec_witness :
    weekday_avg [⟨true, 5⟩, ⟨false, 0⟩] = 0 ∧
    weekend_vs_weekday [⟨true, 5⟩, ⟨false, 0⟩] = 0.65 := by
  have h : weekday_avg [⟨true, 5⟩, ⟨false, 0⟩] = 0 := by
    simp [weekday_avg, weekdayVolumes, List.filter]
  exact ⟨h, (weekend_fallback_spec [⟨true, 5⟩, ⟨false, 0⟩] []).2.1 h⟩

/-- C8 counterexample: on a dataset whose weekday counts are all zero
(one weekend row of 5, one weekday row of 0) the full model's
`weekend_vs_weekday_ratio` has no defined value — it is a silent NaN/inf
rather than the fallback constant 0.65. -/
theorem weekend_full_silent_nan :
    weekend_vs_weekday_full [⟨true, 5⟩, ⟨false, 0⟩] = none ∧
    weekend_vs_weekday_full [⟨true, 5⟩, ⟨false, 0⟩] ≠ some 0.65 := by
  have h : weekend_vs_weekday_full [⟨true, 5⟩, ⟨false, 0⟩] = none := by
    simp [weekend_vs_weekday_full, weekendCounts, weekdayCounts, pdMean, List.filter]
  exact ⟨h, by rw [h]; simp⟩

/-! ### Series Generator: per-interval counts (C6) -/

/-- Python `int()` applied to a float: truncation toward zero. -/
def pytrunc (q : ℚ) : ℤ := if 0 ≤ q then ⌊q⌋ else ⌈q⌉

/-- Hourly transaction count of the simplified generator (lines 50-53):
`int(base_hourly_volume * hour_factor * day_factor * growth_factor *
random_factor)`, with the `random.uniform(0.8, 1.2)` draw passed in
explicitly as `noise`. -/
def simplifiedHourlyCount (base : ℚ) (hour weekday dayIdx : ℕ) (noise : ℚ) : ℤ :=
  pytrunc ((base / 24) * hourFactor hour * dayFactor weekday * growthFactor dayIdx * noise)

/-- 5-minute interval count of the full generator (lines 98-99):
`tx_count = int(base * ...); tx_count = max(0, tx_count)` with
`base = base_minutely_volume * 5` and the `np.random.normal(1, 0.15)` draw
passed in explicitly as `noise`. -/
def fullIntervalCount (base : ℚ) (hour weekday dayIdx : ℕ) (noise : ℚ) : ℤ :=
  max 0 (pytrunc ((base / (24 * 60) * 5) * hourFactor hour * dayFactor weekday *
    growthFactor dayIdx * noise))

theorem pytrunc_of_nonneg {q : ℚ} (h : 0 ≤ q) : pytrunc q = ⌊q⌋ := if_pos h

/-- Truncation toward zero and floor agree after clamping at zero. -/
theorem max_zero_pytrunc (q : ℚ) : max 0 (pytrunc q) = max 0 ⌊q⌋ := by
  unfold pytrunc
  split_ifs with h
  · rfl
  · push_neg at h
    have hc : ⌈q⌉ ≤ 0 := Int.ceil_le.mpr (by exact_mod_cast h.le)
    have hf : ⌊q⌋ ≤ 0 := Int.floor_nonpos h.le
    rw [max_eq_left hc, max_eq_left hf]

theorem hourFactor_pos (hour : ℕ) : 0 < hourFactor hour := by
  unfold hourFactor
  split_ifs <;> norm_num

theorem dayFactor_pos (weekday : ℕ) : 0 < dayFactor weekday := by
  unfold dayFactor
  split_ifs <;> norm_num

theorem growthFactor_ge_one (dayIdx : ℕ) : 1 ≤ growthFactor dayIdx := by
  unfold growthFactor
  have : (0 : ℚ) ≤ 0.03 * dayIdx / 30 := by positivity
  linarith

/-- C6: each generated interval count equals
`floor(base_interval_volume · hourFactor · dayFactor · growthFactor · noise)`
clamped to be never below 0 (for the simplified generator this needs the
noise bound `0.8 ≤ noise` that `random.uniform(0.8, 1.2)` guarantees; the
full generator clamps explicitly, for any noise); the growth factor is the
linear `1 + 0.03·dayIdx/30`; and every count is a non-negative integer. -/
theorem interval_count_formula (base : ℚ) (hour weekday dayIdx : ℕ) (noise : ℚ) :
    (0 < base → 0.8 ≤ noise →
      simplifiedHourlyCount base hour weekday dayIdx noise
        = max 0 ⌊(base / 24) * hourFactor hour * dayFactor weekday *
            growthFactor dayIdx * noise⌋ ∧
      0 ≤ simplifiedHourlyCount base hour weekday dayIdx noise) ∧
    (fullIntervalCount base hour weekday dayIdx noise
      = max 0 ⌊(base / (24 * 60) * 5) * hourFactor hour * dayFactor weekday *
          growthFactor dayIdx * noise⌋) ∧
    0 ≤ fullIntervalCount base hour weekday dayIdx noise ∧
    growthFactor dayIdx = 1 + 0.03 * dayIdx / 30 := by
  refine ⟨?_, max_zero_pytrunc _, le_max_left 0 _, rfl⟩
  intro hbase hnoise
  have hprod : 0 ≤ (base / 24) * hourFactor hour * dayFactor weekday *
      growthFactor dayIdx * noise := by
    have h1 : (0 : ℚ) ≤ base / 24 := by positivity
    have h2 := (hourFactor_pos hour).le
    have h3 := (dayFactor_pos weekday).le
    have h4 : (0 : ℚ) ≤ growthFactor dayIdx := le_trans zero_le_one (growthFactor_ge_one dayIdx)
    have h5 : (0 : ℚ) ≤ noise := by linarith
    exact mul_nonneg (mul_nonneg (mul_nonneg (mul_nonneg h1 h2) h3) h4) h5
  have hfl : 0 ≤ ⌊(base / 24) * hourFactor hour * dayFactor weekday *
      growthFactor dayIdx * noise⌋ := Int.floor_nonneg.mpr hprod
  constructor
  · rw [simplifiedHourlyCount, pytrunc_of_nonneg hprod, max_eq_right hfl]
  · rw [simplifiedHourlyCount, pytrunc_of_nonneg hprod]
    exact hfl

/-- Witness for C6 at base 94301, hour 10, weekday 2, day 0, noise 1. -/
theorem interval_count_formula_witness :
    (0 : ℚ) < 94301 ∧ (0.8 : ℚ) ≤ 1 ∧ 0 ≤ simplifiedHourlyCount 94301 10 2 0 1 :=
  ⟨by norm_num, by norm_num,
    ((interval_count_formula 94301 10 2 0 1).1 (by norm_num) (by norm_num)).2⟩

/-! ### Series shape: point counts and timestamps (C4) -/

/-- The simplified generator's stream of points as (hours-since-start, count)
pairs: 90 days of 24 hourly values (lines 29-56).  `w0` is the weekday of
day 0 and `noise` the injected random stream. -/
def simplifiedPoints (base : ℚ) (noise : ℕ → ℚ) (w0 : ℕ) : List (ℕ × ℤ) :=
  (List.range 90).flatMap fun day =>
    (List.range 24).map fun hour =>
      (day * 24 + hour,
        simplifiedHourlyCount base hour ((w0 + day) % 7) day (noise (day * 24 + hour)))

/-- pandas `date_range(start, end, freq)`: the points `start + k·freq` that
do not exceed `end` — both endpoints are included when the span is a
multiple of the step.  Timestamps in minutes. -/
def dateRange (startT endT step : ℕ) : List ℕ :=
  (List.range ((endT - startT) / step + 1)).map fun k => startT + step * k

/-- The full generator's stream of points over
`date_range(now - 90 days, now, freq='5min')` (lines 73-107): timestamp in
minutes since `t0 := now - 90 days`, so the end is `t0 + 129600` minutes. -/
def fullPoints (base : ℚ) (noise : ℕ → ℚ) (t0 w0 : ℕ) : List (ℕ × ℤ) :=
  (dateRange t0 (t0 + 129600) 5).map fun t =>
    (t, fullIntervalCount base (t / 60 % 24) ((t / 1440 + w0) % 7) ((t - t0) / 1440) (noise t))

theorem range_flatMap_mul (m n : ℕ) :
    (List.range m).flatMap (fun d => (List.range n).map fun h => d * n + h)
      = List.range (m * n) := by
  induction m with
  | zero => simp
  | succ m ih =>
    rw [List.range_succ, List.flatMap_append, ih, Nat.succ_mul, List.range_add]
    simp

/-- C4 (amended): for every positive base volume the simplified series has
exactly `90 × 24 = 2160` hourly points whose timestamps are precisely the
consecutive hours `0..2159` (strictly increasing, no gaps), while the full
series has `90 × 288 + 1 = 25921` five-minute points — pandas `date_range`
includes both endpoints — at the arithmetic progression
`t0, t0+5, ..., t0+5·25920` (strictly increasing, no gaps). -/
theorem series_shape (base : ℚ) (noise : ℕ → ℚ) (t0 w0 : ℕ) (hbase : 0 < base) :
    (simplifiedPoints base noise w0).map Prod.fst = List.range 2160 ∧
    (simplifiedPoints base noise w0).length = 90 * 24 ∧
    ((simplifiedPoints base noise w0).map Prod.fst).Pairwise (· < ·) ∧
    (fullPoints base noise t0 w0).map Prod.fst
      = (List.range 25921).map (fun k => t0 + 5 * k) ∧
    (fullPoints base noise t0 w0).length = 90 * 288 + 1 ∧
    ((fullPoints base noise t0 w0).map Prod.fst).Pairwise (· < ·) := by
  have hsf : (simplifiedPoints base noise w0).map Prod.fst = List.range 2160 := by
    unfold simplifiedPoints
    rw [List.map_flatMap]
    have hinner : ∀ d : ℕ,
        ((List.range 24).map fun hour =>
          (d * 24 + hour,
            simplifiedHourlyCount base hour ((w0 + d) % 7) d (noise (d * 24 + hour)))).map
              Prod.fst
        = (List.range 24).map fun h => d * 24 + h := by
      intro d
      rw [List.map_map]
      rfl
    calc (List.range 90).flatMap (fun d =>
            ((List.range 24).map fun hour =>
              (d * 24 + hour,
                simplifiedHourlyCount base hour ((w0 + d) % 7) d
                  (noise (d * 24 + hour)))).map Prod.fst)
        = (List.range 90).flatMap (fun d => (List.range 24).map fun h => d * 24 + h) := by
          exact List.flatMap_congr fun d _ => hinner d
      _ = List.range (90 * 24) := range_flatMap_mul 90 24
      _ = List.range 2160 := by norm_num
  have hff : (fullPoints base noise t0 w0).map Prod.fst
      = (List.range 25921).map (fun k => t0 + 5 * k) := by
    unfold fullPoints dateRange
    rw [List.map_map, List.map_map]
    have h1 : (t0 + 129600 - t0) / 5 + 1 = 25921 := by omega
    rw [h1]
    rfl
  refine ⟨hsf, ?_, ?_, hff, ?_, ?_⟩
  · have := congrArg List.length hsf
    rw [List.length_map, List.length_range] at this
    omega
  · rw [hsf]; exact List.pairwise_lt_range 2160
  · have := congrArg List.length hff
    rw [List.length_map, List.length_map, List.length_range] at this
    omega
  · rw [hff, List.pairwise_map]
    exact (List.pairwise_lt_range 25921).imp fun h => by omega

/-- Witness for C4 (amended) at base 94301. -/
theorem series_shape_witness :
    (0 : ℚ) < 94301 ∧
    (simplifiedPoints 94301 (fun _ => 1) 0).length = 90 * 24 ∧
    (fullPoints 94301 (fun _ => 1) 0 0).length = 90 * 288 + 1 :=
  ⟨by norm_num,
    (series_shape 94301 (fun _ => 1) 0 0 (by norm_num)).2.1,
    (series_shape 94301 (fun _ => 1) 0 0 (by norm_num)).2.2.2.2.1⟩

/-- C4 counterexample: the full model's series has `90 × 288 + 1 = 25921`
points — `pd.date_range(now - 90 days, now, freq='5min')` includes both
endpoints — not the claimed `90 × 288 = 25920`. -/
theorem full_series_off_by_one :
    (fullPoints 94301 (fun _ => 1) 0 0).length = 25921 ∧ 25921 ≠ 90 * 288 := by
  constructor
  · unfold fullPoints dateRange
    rw [List.length_map, List.length_map, List.length_range]
  · omega

/-! ### Peak and low activity hours (C3) -/

/-- Python `sorted(xs)`: ascending sort. -/
def pysorted (xs : List ℚ) : List ℚ := xs.insertionSort (· ≤ ·)

/-- Python `sorted(xs, reverse=True)`: descending sort. -/
def pysortedDesc (xs : List ℚ) : List ℚ := xs.insertionSort (· ≥ ·)

/-- `sorted(hourly_averages, reverse=True)[2]`: the third-largest average. -/
def thirdLargest (avgs : List ℚ) : ℚ := (pysortedDesc avgs).getD 2 0

/-- `sorted(hourly_averages)[2]`: the third-smallest average. -/
def thirdSmallest (avgs : List ℚ) : ℚ := (pysorted avgs).getD 2 0

/-- `peak_hours` of the simplified engine (lines 163-164):
`[i for i, avg in enumerate(hourly_averages)
   if avg >= sorted(hourly_averages, reverse=True)[2]][:3]`. -/
def peak_hours (avgs : List ℚ) : List ℕ :=
  ((avgs.enum.filter fun p => thirdLargest avgs ≤ p.2).map Prod.fst).take 3

/-- `low_activity_hours` of the simplified engine (lines 165-166). -/
def low_activity_hours (avgs : List ℚ) : List ℕ :=
  ((avgs.enum.filter fun p => p.2 ≤ thirdSmallest avgs).map Prod.fst).take 3

/-- The total order on (index, value) pairs realized by pandas
`nlargest(3)` with its default `keep='first'`: larger value first, ties
broken by original (lower-index) position. -/
def nlargestRel (p q : ℕ × ℚ) : Prop := q.2 < p.2 ∨ (p.2 = q.2 ∧ p.1 ≤ q.1)

/-- The total order realized by pandas `nsmallest(3)` with `keep='first'`:
smaller value first, ties broken by lower index. -/
def nsmallestRel (p q : ℕ × ℚ) : Prop := p.2 < q.2 ∨ (p.2 = q.2 ∧ p.1 ≤ q.1)

instance : DecidableRel nlargestRel := fun p q => by
  unfold nlargestRel; infer_instance

instance : DecidableRel nsmallestRel := fun p q => by
  unfold nsmallestRel; infer_instance

instance : IsTotal (ℕ × ℚ) nlargestRel where
  total p q := by
    unfold nlargestRel
    rcases lt_trichotomy p.2 q.2 with h | h | h
    · exact Or.inr (Or.inl h)
    · rcases Nat.le_total p.1 q.1 with h1 | h1
      · exact Or.inl (Or.inr ⟨h, h1⟩)
      · exact Or.inr (Or.inr ⟨h.symm, h1⟩)
    · exact Or.inl (Or.inl h)

instance : IsTrans (ℕ × ℚ) nlargestRel where
  trans p q s hpq hqs := by
    unfold nlargestRel at *
    rcases hpq with h1 | ⟨h1, h1'⟩ <;> rcases hqs with h2 | ⟨h2, h2'⟩
    · exact Or.inl (lt_trans h2 h1)
    · exact Or.inl (h2 ▸ h1)
    · exact Or.inl (by rw [h1]; exact h2)
    · exact Or.inr ⟨h1.trans h2, h1'.trans h2'⟩

instance : IsTotal (ℕ × ℚ) nsmallestRel where
  total p q := by
    unfold nsmallestRel
    rcases lt_trichotomy p.2 q.2 with h | h | h
    · exact Or.inl (Or.inl h)
    · rcases Nat.le_total p.1 q.1 with h1 | h1
      · exact Or.inl (Or.inr ⟨h, h1⟩)
      · exact Or.inr (Or.inr ⟨h.symm, h1⟩)
    · exact Or.inr (Or.inl h)

instance : IsTrans (ℕ × ℚ) nsmallestRel where
  trans p q s hpq hqs := by
    unfold nsmallestRel at *
    rcases hpq with h1 | ⟨h1, h1'⟩ <;> rcases hqs with h2 | ⟨h2, h2'⟩
    · exact Or.inl (lt_trans h1 h2)
    · exact Or.inl (h2 ▸ h1)
    · exact Or.inl (by rw [h1]; exact h2)
    · exact Or.inr ⟨h1.trans h2, h1'.trans h2'⟩

/-- `hourly_pattern.nlargest(3).index.tolist()` of the full model
(line 210). -/
def peak_hours_full (avgs : List ℚ) : List ℕ :=
  ((avgs.enum.insertionSort nlargestRel).take 3).map Prod.fst

/-- `hourly_pattern.nsmallest(3).index.tolist()` of the full model
(line 211). -/
def low_hours_full (avgs : List ℚ) : List ℕ :=
  ((avgs.enum.insertionSort nsmallestRel).take 3).map Prod.fst

theorem getD_eq_of_lt {α : Type} {l : List α} {i : ℕ} {d : α} (h : i < l.length) :
    l.getD i d = l[i] := by
  rw [List.getD_eq_getElem?_getD, List.getElem?_eq_getElem h, Option.getD_some]

/-- In a pairwise-related list, every element kept by `take n` is related to
every element not kept. -/
theorem pairwise_take_rel {α : Type} {r : α → α → Prop} {s : List α}
    (hs : s.Pairwise r) {n : ℕ} {p q : α}
    (hp : p ∈ s.take n) (hq : q ∈ s) (hq3 : q ∉ s.take n) : r p q := by
  have hsplit := List.take_append_drop n s
  rw [← hsplit] at hs hq
  rcases List.mem_append.mp hq with h | h
  · exact absurd h hq3
  · exact (List.pairwise_append.mp hs).2.2 p hp q h

/-- The first three elements of a list sorted by a reflexive relation are
all related to its third element. -/
theorem sorted_take3_rel {r : ℚ → ℚ → Prop} [IsRefl ℚ r] {s : List ℚ}
    (hs : s.Sorted r) (hlen : 2 < s.length) :
    ∀ x ∈ s.take 3, r x (s.getD 2 0) := by
  intro x hx
  rcases List.mem_iff_getElem.mp hx with ⟨i, hi, rfl⟩
  have hi3 : i < 3 := lt_of_lt_of_le hi (by rw [List.length_take]; exact min_le_left _ _)
  have hil : i < s.length := by rw [List.length_take] at hi; omega
  rw [List.getElem_take, getD_eq_of_lt hlen]
  rcases Nat.lt_or_ge i 2 with h | h
  · have := hs.rel_get_of_lt (a := ⟨i, hil⟩) (b := ⟨2, hlen⟩) h
    simpa using this
  · have hieq : i = 2 := by omega
    subst hieq
    exact refl _

theorem countP_ge_three_of_sorted (avgs s : List ℚ) (pred : ℚ → Bool)
    (hperm : s.Perm avgs) (hlen : 2 < s.length)
    (h3 : ∀ x ∈ s.take 3, pred x = true) :
    3 ≤ avgs.countP pred := by
  have h1 : avgs.countP pred = s.countP pred := (hperm.countP_eq pred).symm
  have h2 : (s.take 3).countP pred ≤ s.countP pred :=
    (List.take_sublist 3 s).countP_le pred
  have h4 : (s.take 3).countP pred = (s.take 3).length :=
    List.countP_eq_length.mpr h3
  have h5 : (s.take 3).length = 3 := by
    rw [List.length_take]; omega
  omega

theorem countP_enum_snd (l : List ℚ) (pred : ℚ → Bool) :
    l.enum.countP (fun p => pred p.2) = l.countP pred := by
  conv_rhs => rw [← List.enum_map_snd l, List.countP_map]
  rfl

theorem enum_fst_pairwise (l : List ℚ) : l.enum.Pairwise fun p q => p.1 < q.1 := by
  have h := List.pairwise_lt_range l.length
  rw [← List.enum_map_fst l, List.pairwise_map] at h
  exact h

theorem mem_enum_getD {l : List ℚ} {j : ℕ} (hj : j < l.length) :
    (j, l.getD j 0) ∈ l.enum := by
  rw [List.mk_mem_enum_iff_getElem?, List.getElem?_eq_getElem hj, getD_eq_of_lt hj]

/-- The shared shape of `peak_hours` and `low_activity_hours`: the first
three enumeration indices whose value satisfies `pred`. -/
def firstThree (l : List ℚ) (pred : ℚ → Bool) : List ℕ :=
  ((l.enum.filter fun p => pred p.2).map Prod.fst).take 3

theorem peak_hours_eq_firstThree (avgs : List ℚ) :
    peak_hours avgs = firstThree avgs fun v => thirdLargest avgs ≤ v := rfl

theorem low_activity_hours_eq_firstThree (avgs : List ℚ) :
    low_activity_hours avgs = firstThree avgs fun v => v ≤ thirdSmallest avgs := rfl

theorem firstThree_length (l : List ℚ) (pred : ℚ → Bool)
    (h3 : 3 ≤ l.countP pred) : (firstThree l pred).length = 3 := by
  unfold firstThree
  rw [List.length_take, List.length_map, ← List.countP_eq_length_filter, countP_enum_snd]
  omega

theorem firstThree_mem (l : List ℚ) (pred : ℚ → Bool) {i : ℕ}
    (hi : i ∈ firstThree l pred) : i < l.length ∧ pred (l.getD i 0) = true := by
  unfold firstThree at hi
  have hi' : i ∈ (l.enum.filter fun p => pred p.2).map Prod.fst := List.mem_of_mem_take hi
  rcases List.mem_map.mp hi' with ⟨p, hpF, rfl⟩
  have h := List.mem_filter.mp hpF
  have h1 := List.fst_lt_of_mem_enum h.1
  have h2 := List.snd_eq_of_mem_enum h.1
  refine ⟨h1, ?_⟩
  rw [getD_eq_of_lt h1, ← h2]
  exact h.2

theorem firstThree_map_pairwise (l : List ℚ) (pred : ℚ → Bool) :
    ((l.enum.filter fun p => pred p.2).map Prod.fst).Pairwise (· < ·) :=
  List.pairwise_map.mpr ((enum_fst_pairwise l).filter _)

theorem firstThree_pairwise (l : List ℚ) (pred : ℚ → Bool) :
    (firstThree l pred).Pairwise (· < ·) :=
  (firstThree_map_pairwise l pred).sublist (List.take_sublist _ _)

theorem firstThree_first (l : List ℚ) (pred : ℚ → Bool) {j : ℕ}
    (hj : j < l.length) (hpj : pred (l.getD j 0) = true)
    (hnj : j ∉ firstThree l pred) : ∀ i ∈ firstThree l pred, i < j := by
  intro i hi
  have hq : (j, l.getD j 0) ∈ l.enum.filter fun p => pred p.2 :=
    List.mem_filter.mpr ⟨mem_enum_getD hj, hpj⟩
  have hjm : j ∈ (l.enum.filter fun p => pred p.2).map Prod.fst :=
    List.mem_map.mpr ⟨(j, l.getD j 0), hq, rfl⟩
  exact pairwise_take_rel (firstThree_map_pairwise l pred) hi hjm hnj

theorem countP_peak_ge_three (avgs : List ℚ) (hlen : 2 < avgs.length) :
    3 ≤ avgs.countP fun v => thirdLargest avgs ≤ v := by
  apply countP_ge_three_of_sorted avgs (pysortedDesc avgs) _
    (List.perm_insertionSort _ avgs)
    (by rw [pysortedDesc, List.length_insertionSort]; omega)
  intro x hx
  rw [decide_eq_true_eq]
  exact sorted_take3_rel (r := (· ≥ ·)) (List.sorted_insertionSort _ avgs)
    (by rw [List.length_insertionSort]; omega) x hx

theorem countP_low_ge_three (avgs : List ℚ) (hlen : 2 < avgs.length) :
    3 ≤ avgs.countP fun v => v ≤ thirdSmallest avgs := by
  apply countP_ge_three_of_sorted avgs (pysorted avgs) _
    (List.perm_insertionSort _ avgs)
    (by rw [pysorted, List.length_insertionSort]; omega)
  intro x hx
  rw [decide_eq_true_eq]
  exact sorted_take3_rel (r := (· ≤ ·)) (List.sorted_insertionSort _ avgs)
    (by rw [List.length_insertionSort]; omega) x hx

section SortTake3

variable (r : ℕ × ℚ → ℕ × ℚ → Prop) [DecidableRel r]
variable [IsTotal (ℕ × ℚ) r] [IsTrans (ℕ × ℚ) r]

theorem sortTake3_length (avgs : List ℚ) (h3 : 3 ≤ avgs.length) :
    (((avgs.enum.insertionSort r).take 3).map Prod.fst).length = 3 := by
  rw [List.length_map, List.length_take, List.length_insertionSort, List.enum_length]
  omega

theorem sortTake3_nodup (avgs : List ℚ) :
    (((avgs.enum.insertionSort r).take 3).map Prod.fst).Nodup := by
  have hperm : (avgs.enum.insertionSort r).Perm avgs.enum := List.perm_insertionSort r _
  have hfst : ((avgs.enum.insertionSort r).map Prod.fst).Perm (List.range avgs.length) := by
    have := hperm.map Prod.fst
    rwa [List.enum_map_fst] at this
  have hnod : ((avgs.enum.insertionSort r).map Prod.fst).Nodup :=
    hfst.nodup_iff.mpr (List.nodup_range _)
  exact hnod.sublist ((List.take_sublist 3 _).map Prod.fst)

theorem sortTake3_mem_lt (avgs : List ℚ) {i : ℕ}
    (hi : i ∈ ((avgs.enum.insertionSort r).take 3).map Prod.fst) : i < avgs.length := by
  rcases List.mem_map.mp hi with ⟨p, hp, rfl⟩
  have hp' : p ∈ avgs.enum.insertionSort r := List.mem_of_mem_take hp
  have hp'' : p ∈ avgs.enum := (List.mem_insertionSort r).mp hp'
  exact List.fst_lt_of_mem_enum hp''

theorem sortTake3_rel_of_not_mem (avgs : List ℚ) {i j : ℕ}
    (hi : i ∈ ((avgs.enum.insertionSort r).take 3).map Prod.fst)
    (hj : j < avgs.length)
    (hnj : j ∉ ((avgs.enum.insertionSort r).take 3).map Prod.fst) :
    r (i, avgs.getD i 0) (j, avgs.getD j 0) := by
  rcases List.mem_map.mp hi with ⟨p, hp, rfl⟩
  have hps : p ∈ avgs.enum.insertionSort r := List.mem_of_mem_take hp
  have hpe : p ∈ avgs.enum := (List.mem_insertionSort r).mp hps
  have hpi : p.1 < avgs.length := List.fst_lt_of_mem_enum hpe
  have hpv : p.2 = avgs.getD p.1 0 := by
    rw [getD_eq_of_lt hpi]; exact List.snd_eq_of_mem_enum hpe
  have hpeq : p = (p.1, avgs.getD p.1 0) := by
    rw [← hpv]
  have hqe : (j, avgs.getD j 0) ∈ avgs.enum := mem_enum_getD hj
  have hqs : (j, avgs.getD j 0) ∈ avgs.enum.insertionSort r :=
    (List.mem_insertionSort r).mpr hqe
  have hq3 : (j, avgs.getD j 0) ∉ (avgs.enum.insertionSort r).take 3 := by
    intro hq
    exact hnj (List.mem_map.mpr ⟨(j, avgs.getD j 0), hq, rfl⟩)
  have hrel := pairwise_take_rel (List.sorted_insertionSort r avgs.enum) hp hqs hq3
  rwa [hpeq] at hrel

end SortTake3

/-- C3 (amended): the full model's `nlargest(3)`/`nsmallest(3)` fields are
the three distinct in-range hour indices that dominate every non-selected
hour (strictly larger — resp. smaller — average, or an equal average at a
lower index), i.e. the top-3/bottom-3 with ties broken by lower index; the
simplified model instead returns the first three hour indices, in increasing
index order, whose average is at least the third-largest (resp. at most the
third-smallest) of the 24 averages — which can differ from the top-3 when
ties straddle the cutoff. -/
theorem peak_low_hours_spec (avgs : List ℚ) (h24 : avgs.length = 24) :
    ((peak_hours avgs).length = 3 ∧
      (∀ i ∈ peak_hours avgs, i < 24 ∧ thirdLargest avgs ≤ avgs.getD i 0) ∧
      (∀ j, j < 24 → thirdLargest avgs ≤ avgs.getD j 0 → j ∉ peak_hours avgs →
        ∀ i ∈ peak_hours avgs, i < j) ∧
      (peak_hours avgs).Pairwise (· < ·)) ∧
    ((low_activity_hours avgs).length = 3 ∧
      (∀ i ∈ low_activity_hours avgs, i < 24 ∧ avgs.getD i 0 ≤ thirdSmallest avgs) ∧
      (∀ j, j < 24 → avgs.getD j 0 ≤ thirdSmallest avgs → j ∉ low_activity_hours avgs →
        ∀ i ∈ low_activity_hours avgs, i < j) ∧
      (low_activity_hours avgs).Pairwise (· < ·)) ∧
    ((peak_hours_full avgs).length = 3 ∧ (peak_hours_full avgs).Nodup ∧
      (∀ i ∈ peak_hours_full avgs, i < 24) ∧
      (∀ i ∈ peak_hours_full avgs, ∀ j, j < 24 → j ∉ peak_hours_full avgs →
        avgs.getD j 0 < avgs.getD i 0 ∨ (avgs.getD i 0 = avgs.getD j 0 ∧ i < j))) ∧
    ((low_hours_full avgs).length = 3 ∧ (low_hours_full avgs).Nodup ∧
      (∀ i ∈ low_hours_full avgs, i < 24) ∧
      (∀ i ∈ low_hours_full avgs, ∀ j, j < 24 → j ∉ low_hours_full avgs →
        avgs.getD i 0 < avgs.getD j 0 ∨ (avgs.getD i 0 = avgs.getD j 0 ∧ i < j))) := by
  have hlen : 2 < avgs.length := by omega
  refine ⟨⟨?_, ?_, ?_, ?_⟩, ⟨?_, ?_, ?_, ?_⟩, ⟨?_, ?_, ?_, ?_⟩, ⟨?_, ?_, ?_, ?_⟩⟩
  · rw [peak_hours_eq_firstThree]
    exact firstThree_length _ _ (countP_peak_ge_three avgs hlen)
  · intro i hi
    rw [peak_hours_eq_firstThree] at hi
    have h := firstThree_mem _ _ hi
    exact ⟨h24 ▸ h.1, of_decide_eq_true h.2⟩
  · intro j hj hpj hnj i hi
    rw [peak_hours_eq_firstThree] at hnj hi
    exact firstThree_first _ _ (h24 ▸ hj) (decide_eq_true hpj) hnj i hi
  · rw [peak_hours_eq_firstThree]
    exact firstThree_pairwise _ _
  · rw [low_activity_hours_eq_firstThree]
    exact firstThree_length _ _ (countP_low_ge_three avgs hlen)
  · intro i hi
    rw [low_activity_hours_eq_firstThree] at hi
    have h := firstThree_mem _ _ hi
    exact ⟨h24 ▸ h.1, of_decide_eq_true h.2⟩
  · intro j hj hpj hnj i hi
    rw [low_activity_hours_eq_firstThree] at hnj hi
    exact firstThree_first _ _ (h24 ▸ hj) (decide_eq_true hpj) hnj i hi
  · rw [low_activity_hours_eq_firstThree]
    exact firstThree_pairwise _ _
  · exact sortTake3_length nlargestRel avgs (by omega)
  · exact sortTake3_nodup nlargestRel avgs
  · intro i hi
    exact h24 ▸ sortTake3_mem_lt nlargestRel avgs hi
  · intro i hi j hj hnj
    have hij : i ≠ j := fun h => hnj (h ▸ hi)
    have hrel := sortTake3_rel_of_not_mem nlargestRel avgs hi (h24 ▸ hj) hnj
    unfold nlargestRel at hrel
    rcases hrel with h | ⟨h1, h2⟩
    · exact Or.inl h
    · exact Or.inr ⟨h1, lt_of_le_of_ne h2 hij⟩
  · exact sortTake3_length nsmallestRel avgs (by omega)
  · exact sortTake3_nodup nsmallestRel avgs
  · intro i hi
    exact h24 ▸ sortTake3_mem_lt nsmallestRel avgs hi
  · intro i hi j hj hnj
    have hij : i ≠ j := fun h => hnj (h ▸ hi)
    have hrel := sortTake3_rel_of_not_mem nsmallestRel avgs hi (h24 ▸ hj) hnj
    unfold nsmallestRel at hrel
    rcases hrel with h | ⟨h1, h2⟩
    · exact Or.inl h
    · exact Or.inr ⟨h1, lt_of_le_of_ne h2 hij⟩

/-- Witness for C3 (amended) on the 24 averages `0, 1, ..., 23`. -/
theorem peak_low_hours_spec_witness :
    ((List.range 24).map fun n : ℕ => (n : ℚ)).length = 24 ∧
    (peak_hours ((List.range 24).map fun n : ℕ => (n : ℚ))).length = 3 ∧
    (peak_hours_full ((List.range 24).map fun n : ℕ => (n : ℚ))).length = 3 := by
  have h24 : ((List.range 24).map fun n : ℕ => (n : ℚ)).length = 24 := by
    rw [List.length_map, List.length_range]
  refine ⟨h24, ?_, ?_⟩
  · exact (peak_low_hours_spec _ h24).1.1
  · exact (peak_low_hours_spec _ h24).2.2.1.1

/-- C3 counterexample: on the 24 averages `[5, 5, 5, 10, 0, ..., 0]` the
simplified `peak_hours` is `[0, 1, 2]` and omits hour 3 even though hour 3
has the strictly largest average — so the field is not the 3 indices with
the largest averages under any tie-breaking rule. -/
theorem peak_hours_misses_max :
    peak_hours ([5, 5, 5, 10] ++ List.replicate 20 0) = [0, 1, 2] ∧
    (3 : ℕ) ∉ peak_hours ([5, 5, 5, 10] ++ List.replicate 20 0) ∧
    ∀ i ∈ peak_hours ([5, 5, 5, 10] ++ List.replicate 20 0),
      (([5, 5, 5, 10] ++ List.replicate 20 0 : List ℚ)).getD i 0
        < (([5, 5, 5, 10] ++ List.replicate 20 0 : List ℚ)).getD 3 0 := by
  decide

end LiskAnalysis
